import Mathlib

/-!
Shallow embedding of the RecipeServer nutrition-estimation and
recipe-scraping core (`app/services/nutrition_service.py` and
`app/services/scraper_service.py`).

Python floats are modelled as exact rationals (`ℚ`); Python dicts with a
fixed insertion order are modelled as association lists in source order;
Python exceptions are modelled with `Except String`.  String helpers are
defined on `List Char` (`String.data`) so that they reduce.
-/

namespace RecipeServer

/-- Characters treated as whitespace by Python's `str.split()` / `str.strip()`
(ASCII fragment, which is all this repository feeds them). -/
def pyIsSpace (c : Char) : Bool :=
  c = ' ' ∨ c = '\t' ∨ c = '\n' ∨ c = '\r' ∨ c = '\x0b' ∨ c = '\x0c'

/-- `str.lower()` (ASCII case folding). -/
def pyLower (s : String) : String := ⟨s.data.map Char.toLower⟩

/-- `str.strip()`: drop whitespace at both ends. -/
def pyStrip (s : String) : String :=
  ⟨((s.data.dropWhile pyIsSpace).reverse.dropWhile pyIsSpace).reverse⟩

/-- Worker for `str.split()`-style tokenisation: split at separator
characters, discarding empty pieces.  `cur` is the current token, reversed. -/
def splitTokensAux (p : Char → Bool) : List Char → List Char → List String
  | [], cur => if cur.isEmpty then [] else [⟨cur.reverse⟩]
  | c :: cs, cur =>
    if p c then
      if cur.isEmpty then splitTokensAux p cs []
      else ⟨cur.reverse⟩ :: splitTokensAux p cs []
    else splitTokensAux p cs (c :: cur)

/-- Split a string at characters satisfying `p`, discarding empty pieces. -/
def splitTokens (p : Char → Bool) (s : String) : List String :=
  splitTokensAux p s.data []

/-- Python's `str.split()` with no argument. -/
def pySplit (s : String) : List String := splitTokens pyIsSpace s

/-- Does `pre` occur at the head of `l`? -/
def startsWithL : List Char → List Char → Bool
  | [], _ => true
  | _ :: _, [] => false
  | a :: as, b :: bs => a = b && startsWithL as bs

/-- Python's `str.startswith(pre)`. -/
def pyStartsWith (s pre : String) : Bool := startsWithL pre.data s.data

/-- Does `sub` occur contiguously anywhere in `l`? -/
def containsL (sub : List Char) : List Char → Bool
  | [] => sub.isEmpty
  | c :: t => startsWithL sub (c :: t) || containsL sub t

/-- Python's substring test `sub in s`. -/
def pyContains (s sub : String) : Bool := containsL sub.data s.data

/-- Digits of a numeral, most significant first, to a natural number. -/
def natOfDigits (l : List Char) : ℕ :=
  l.foldl (fun a c => a * 10 + (c.toNat - 48)) 0

/-- Exponent part of a Python float literal: optional sign then digits,
consuming the whole remaining input. -/
def parseExpPart (cs : List Char) : Option ℤ :=
  let (neg, cs1) :=
    match cs with
    | '-' :: r => (true, r)
    | '+' :: r => (false, r)
    | _ => (false, cs)
  let ds := cs1.takeWhile Char.isDigit
  let rest := cs1.dropWhile Char.isDigit
  if ds.isEmpty ∨ ¬ rest.isEmpty then none
  else some (if neg then -(natOfDigits ds : ℤ) else (natOfDigits ds : ℤ))

/-- Python's builtin `float(str)` conversion, modelled on the grammar
`[+-]? (digits [. digits?] | . digits) ([eE] [+-]? digits)?`; returns `none`
where Python raises `ValueError`. -/
def pyParseFloat (s : String) : Option ℚ :=
  let cs := s.data
  let (neg, cs1) :=
    match cs with
    | '-' :: r => (true, r)
    | '+' :: r => (false, r)
    | _ => (false, cs)
  let ip := cs1.takeWhile Char.isDigit
  let cs2 := cs1.dropWhile Char.isDigit
  let (fp, cs3) :=
    match cs2 with
    | '.' :: r => (r.takeWhile Char.isDigit, r.dropWhile Char.isDigit)
    | _ => ([], cs2)
  if ip.isEmpty ∧ fp.isEmpty then none
  else
    let mant : ℚ := (natOfDigits ip : ℚ) + (natOfDigits fp : ℚ) / ((10 : ℚ) ^ fp.length)
    let signed := if neg then -mant else mant
    match cs3 with
    | [] => some signed
    | 'e' :: r => (parseExpPart r).map (fun e => signed * (10 : ℚ) ^ e)
    | 'E' :: r => (parseExpPart r).map (fun e => signed * (10 : ℚ) ^ e)
    | _ => none

/-- Python's `round(·, 2)` tie behaviour: round half to even.  The argument
is already scaled by 100. -/
def roundHalfEven (q : ℚ) : ℤ :=
  let f := ⌊q⌋
  if q - f < 1 / 2 then f
  else if q - f > 1 / 2 then f + 1
  else if f % 2 = 0 then f else f + 1

/-- Python's `round(x, 2)`. -/
def pyRound2 (q : ℚ) : ℚ := (roundHalfEven (q * 100) : ℚ) / 100

/-! ## `NutritionService` (`app/services/nutrition_service.py`) -/

/-- `NutritionService.NUTRITION_DB`: per-100g profiles, in source
(insertion) order. -/
def NUTRITION_DB : List (String × List (String × ℚ)) :=
  [("flour", [("calories", 364), ("protein", 10.0), ("carbs", 76.0), ("fat", 1.0),
              ("sugar", 0.3), ("sodium", 2.0), ("fiber", 2.7)]),
   ("sugar", [("calories", 387), ("protein", 0.0), ("carbs", 100.0), ("fat", 0.0),
              ("sugar", 100.0), ("sodium", 1.0), ("fiber", 0.0)]),
   ("butter", [("calories", 717), ("protein", 0.9), ("carbs", 0.1), ("fat", 81.0),
               ("sugar", 0.1), ("sodium", 11.0), ("fiber", 0.0)]),
   ("egg", [("calories", 155), ("protein", 13.0), ("carbs", 1.1), ("fat", 11.0),
            ("sugar", 1.1), ("sodium", 124.0), ("fiber", 0.0)]),
   ("milk", [("calories", 42), ("protein", 3.4), ("carbs", 5.0), ("fat", 1.0),
             ("sugar", 5.0), ("sodium", 44.0), ("fiber", 0.0)]),
   ("oil", [("calories", 884), ("protein", 0.0), ("carbs", 0.0), ("fat", 100.0),
            ("sugar", 0.0), ("sodium", 0.0), ("fiber", 0.0)]),
   ("salt", [("calories", 0.0), ("protein", 0.0), ("carbs", 0.0), ("fat", 0.0),
             ("sugar", 0.0), ("sodium", 38758.0), ("fiber", 0.0)])]

/-- `NutritionService.UNIT_TO_GRAMS`, in source order. -/
def UNIT_TO_GRAMS : List (String × ℚ) :=
  [("g", 1.0), ("gram", 1.0), ("grams", 1.0), ("kg", 1000.0), ("mg", 0.001),
   ("oz", 28.3495), ("ounce", 28.3495), ("lb", 453.592), ("pound", 453.592),
   ("tsp", 4.2), ("teaspoon", 4.2), ("tbsp", 14.3), ("tablespoon", 14.3),
   ("cup", 120.0), ("ml", 1.0), ("l", 1000.0), ("whole", 50.0), ("unit", 50.0)]

/-- `NutritionService.DEFAULT_KEYS`. -/
def DEFAULT_KEYS : List String :=
  ["calories", "protein", "carbs", "fat", "sugar", "sodium", "fiber"]

/-- The `NormalisedIngredient` dataclass. -/
structure NormalisedIngredient where
  name : String
  amount : ℚ
  unit : String
deriving DecidableEq

/-- A Python value that can sit in a structured ingredient's `"amount"`
field: a number, a string, or `None`. -/
inductive PyVal where
  | num (q : ℚ)
  | str (s : String)
  | none_
deriving DecidableEq

/-- Python truthiness for the values of `PyVal` (used by `x or 1.0`). -/
def pyTruthy : PyVal → Bool
  | .num q => q ≠ 0
  | .str s => s ≠ ""
  | .none_ => false

/-- Python's builtin `float(x)` on a `PyVal`; errors model `ValueError` /
`TypeError`. -/
def pyFloatOf : PyVal → Except String ℚ
  | .num q => .ok q
  | .str s =>
    match pyParseFloat s with
    | some q => .ok q
    | none => .error ("could not convert string to float: " ++ s)
  | .none_ => .error "float() argument must be a string or a real number, not NoneType"

/-- A structured ingredient payload: a dict with optional `name`, `amount`,
`unit` keys (`none` = key absent). -/
structure IngredientDict where
  name : Option String
  amount : Option PyVal
  unit : Option String
deriving DecidableEq

/-- An element of the `ingredients` argument of `calculate_nutrition`:
either a bare string or a structured record. -/
inductive IngredientEntry where
  | strE (s : String)
  | dictE (d : IngredientDict)
deriving DecidableEq

/-- One iteration of the loop in `NutritionService._normalise_ingredients`:
bare strings get amount 1.0 and unit `"unit"`; records get
`float(item.get("amount", 1.0) or 1.0)` and lowercased name/unit with
defaults `""` / `"g"`. -/
def normaliseEntry : IngredientEntry → Except String NormalisedIngredient
  | .strE s => .ok ⟨pyLower s, 1, "unit"⟩
  | .dictE d =>
    let name := pyLower (d.name.getD "")
    let rawAmount := d.amount.getD (.num 1)
    match pyFloatOf (if pyTruthy rawAmount then rawAmount else .num 1) with
    | .error e => .error e
    | .ok amount => .ok ⟨name, amount, pyLower (d.unit.getD "g")⟩

/-- `NutritionService._normalise_ingredients`: normalise in order, raising at
the first bad entry. -/
def normaliseIngredients : List IngredientEntry → Except String (List NormalisedIngredient)
  | [] => .ok []
  | e :: rest =>
    match normaliseEntry e with
    | .error msg => .error msg
    | .ok n =>
      match normaliseIngredients rest with
      | .error msg => .error msg
      | .ok ns => .ok (n :: ns)

/-- `profile.get(key, 0.0)` on a profile association list. -/
def profGet (p : List (String × ℚ)) (key : String) : ℚ :=
  match p with
  | [] => 0
  | (k, v) :: rest => if key = k then v else profGet rest key

/-- The all-zero profile `{key: 0.0 for key in DEFAULT_KEYS}`. -/
def zeroProfile : List (String × ℚ) := DEFAULT_KEYS.map (fun k => (k, 0))

/-- The loop of `NutritionService._lookup_profile` over a profile table:
first key that is a substring of `name` wins. -/
def lookupIn : List (String × List (String × ℚ)) → String → List (String × ℚ)
  | [], _ => zeroProfile
  | (key, profile) :: rest, name =>
    if pyContains name key then profile else lookupIn rest name

/-- `NutritionService._lookup_profile`. -/
def lookupProfile (name : String) : List (String × ℚ) := lookupIn NUTRITION_DB name

/-- `dict.get` on the unit table. -/
def unitLookup : List (String × ℚ) → String → Option ℚ
  | [], _ => none
  | (k, v) :: rest, u => if u = k then some v else unitLookup rest u

/-- `NutritionService._to_grams`. -/
def toGrams (amount : ℚ) (unit : String) : ℚ :=
  match unitLookup UNIT_TO_GRAMS (pyLower unit) with
  | none => amount
  | some c => amount * c

/-- The per-key accumulation of `NutritionService.calculate_nutrition`:
`totals[key] += profile.get(key, 0.0) * (grams / 100)`, over the normalised
ingredients in order. -/
def nutrientTotal (norm : List NormalisedIngredient) (key : String) : ℚ :=
  norm.foldl
    (fun acc ing =>
      acc + profGet (lookupProfile ing.name) key * (toGrams ing.amount ing.unit / 100)) 0

/-- `NutritionService.calculate_nutrition`: the returned dict, as an
association list in `DEFAULT_KEYS` (insertion) order. -/
def calculate_nutrition (ingredients : List IngredientEntry) :
    Except String (List (String × ℚ)) :=
  match normaliseIngredients ingredients with
  | .error e => .error e
  | .ok norm => .ok (DEFAULT_KEYS.map (fun key => (key, pyRound2 (nutrientTotal norm key))))

/-! ## `ScraperService` (`app/services/scraper_service.py`) -/

/-- The character class of `INGREDIENT_PATTERN = re.compile(r"^[-â€¢]\s*")`
(the bullet `•` appears mojibake-encoded in the source as the three
characters `â`, `€`, `¢`). -/
def bulletChars : List Char := ['-', 'â', '€', '¢']

/-- `INGREDIENT_PATTERN.sub("", line)`: strip one leading bullet-class
character together with the whitespace following it. -/
def stripBullet (line : String) : String :=
  match line.data with
  | [] => line
  | c :: rest => if c ∈ bulletChars then ⟨rest.dropWhile pyIsSpace⟩ else line

/-- `" ".join(tokens)`-style joining. -/
def pyJoin (sep : String) : List String → String
  | [] => ""
  | [x] => x
  | x :: xs => x ++ sep ++ pyJoin sep xs

/-- The dict returned by `ScraperService._parse_ingredient`. -/
structure ParsedIngredient where
  name : String
  amount : Option ℚ
  unit : Option String
deriving DecidableEq

/-- `ScraperService._parse_ingredient`. -/
def parse_ingredient (line : String) : ParsedIngredient :=
  let line := stripBullet line
  match pySplit line with
  | [] => ⟨line, none, none⟩
  | t0 :: rest =>
    match pyParseFloat t0 with
    | none => ⟨pyJoin " " (t0 :: rest), none, none⟩
    | some a =>
      match rest with
      | [] => ⟨line, some a, none⟩
      | u :: nameToks =>
        match nameToks with
        | [] => ⟨if u = "" then line else u, some a, some u⟩
        | _ :: _ => ⟨pyJoin " " nameToks, some a, some u⟩

/-- First maximal digit run in the character list, as a number
(`NUMBER_PATTERN.search`, pattern `(\d+)`). -/
def firstNumberL : List Char → Option ℕ
  | [] => none
  | c :: r =>
    if c.isDigit then some (natOfDigits (c :: r.takeWhile Char.isDigit))
    else firstNumberL r

/-- `ScraperService._extract_number`. -/
def extract_number (s : String) : Option ℕ := firstNumberL s.data

/-- The character set of `line.lstrip("0123456789.-) ")`. -/
def instructionStripChars : List Char := "0123456789.-) ".data

/-- `ScraperService._normalise_instruction`. -/
def normalise_instruction (line : String) : String :=
  ⟨line.data.dropWhile (fun c => c ∈ instructionStripChars)⟩

/-- The section mode of the line-classification loop in
`ScraperService._parse_extracted_text`. -/
inductive SectionMode where
  | ingredients
  | instructions
deriving DecidableEq

/-- The mutable locals of the loop in `_parse_extracted_text`. -/
structure ScrapeState where
  sect : Option SectionMode
  description : String
  ingredients : List ParsedIngredient
  instructions : List String
  prep_time : Option ℕ
  cook_time : Option ℕ
  servings : Option ℕ
deriving DecidableEq

/-- One iteration of the line loop in `_parse_extracted_text`, with the
source's test order: ingredients / instructions headers, then prep time,
cook time, servings metadata, then section-dependent content handling. -/
def stepLine (st : ScrapeState) (line : String) : ScrapeState :=
  let lower := pyLower line
  if pyStartsWith lower "ingredients" then { st with sect := some .ingredients }
  else if pyStartsWith lower "instructions" then { st with sect := some .instructions }
  else if pyStartsWith lower "prep time" then { st with prep_time := extract_number line }
  else if pyStartsWith lower "cook time" then { st with cook_time := extract_number line }
  else if pyStartsWith lower "servings" then { st with servings := extract_number line }
  else
    match st.sect with
    | some .ingredients =>
      { st with ingredients := st.ingredients ++ [parse_ingredient line] }
    | some .instructions =>
      { st with instructions := st.instructions ++ [normalise_instruction line] }
    | none => if st.description = "" then { st with description := line } else st

/-- The dict returned by `_parse_extracted_text`. -/
structure ParsedRecipe where
  title : String
  description : String
  ingredients : List ParsedIngredient
  instructions : String
  prep_time : Option ℕ
  cook_time : Option ℕ
  servings : Option ℕ
  image_url : Option String
  source_url : String
  nutrition : List (String × ℚ)
deriving DecidableEq

/-- A parsed-ingredient dict viewed as an input of `calculate_nutrition`
(its `amount` may hold `None`; `str(None)` is the string `"None"` for the
`unit` field, applied inside normalisation via `d.unit.getD`). -/
def parsedToEntry (p : ParsedIngredient) : IngredientEntry :=
  .dictE ⟨some p.name,
          some (match p.amount with | some q => .num q | none => .none_),
          some (match p.unit with | some u => u | none => "None")⟩

/-- Line-break characters for `str.splitlines()` (the repository only ever
meets `\n` / `\r\n`). -/
def isNewlineChar (c : Char) : Bool := c = '\n' ∨ c = '\r'

/-- `[line.strip() for line in text.splitlines() if line.strip()]`. -/
def cleanLines (text : String) : List String :=
  ((splitTokens isNewlineChar text).map pyStrip).filter (fun l => l ≠ "")

/-- `ScraperService._parse_extracted_text`. -/
def parse_extracted_text (text url : String) : Except String ParsedRecipe :=
  match cleanLines text with
  | [] => .error "Extracted content was empty"
  | title :: rest =>
    let st := rest.foldl stepLine ⟨none, "", [], [], none, none, none⟩
    let instructions_text := if st.instructions.isEmpty then "" else pyJoin "\n" st.instructions
    match calculate_nutrition (st.ingredients.map parsedToEntry) with
    | .error e => .error e
    | .ok nutrition =>
      .ok ⟨title, st.description, st.ingredients, instructions_text,
           st.prep_time, st.cook_time, st.servings, none, url, nutrition⟩

/-- The metadata-line test of the classification loop: a line whose
lowercased form starts with `"prep time"`, `"cook time"` or `"servings"`. -/
def isMetaLine (line : String) : Bool :=
  pyStartsWith (pyLower line) "prep time" || pyStartsWith (pyLower line) "cook time" ||
    pyStartsWith (pyLower line) "servings"

/-! ## General lemmas about the embedding -/

theorem lookupIn_eq_find (db : List (String × List (String × ℚ))) (name : String) :
    lookupIn db name =
      ((db.find? (fun kv => pyContains name kv.1)).map Prod.snd).getD zeroProfile := by
  induction db with
  | nil => rfl
  | cons kv rest ih =>
    obtain ⟨key, profile⟩ := kv
    by_cases h : pyContains name key
    · simp [lookupIn, List.find?, h]
    · simp only [lookupIn, List.find?, h]
      simpa [h] using ih

theorem profGet_nonneg (p : List (String × ℚ)) (h : ∀ e ∈ p, 0 ≤ e.2) (key : String) :
    0 ≤ profGet p key := by
  induction p with
  | nil => simp [profGet]
  | cons e rest ih =>
    obtain ⟨k, v⟩ := e
    by_cases hk : key = k
    · simpa [profGet, hk] using h (k, v) (by simp)
    · simp only [profGet, hk, if_false]
      exact ih (fun e he => h e (List.mem_cons_of_mem _ he))

theorem db_entries_nonneg : ∀ kv ∈ NUTRITION_DB, ∀ e ∈ kv.2, 0 ≤ e.2 := by
  intro kv hkv
  fin_cases hkv <;> (intro e he; fin_cases he <;> norm_num)

theorem zeroProfile_entries_nonneg : ∀ e ∈ zeroProfile, 0 ≤ e.2 := by
  intro e he
  fin_cases he <;> norm_num

theorem lookupIn_entries_nonneg (db : List (String × List (String × ℚ)))
    (hdb : ∀ kv ∈ db, ∀ e ∈ kv.2, 0 ≤ e.2) (name : String) :
    ∀ e ∈ lookupIn db name, 0 ≤ e.2 := by
  induction db with
  | nil => exact zeroProfile_entries_nonneg
  | cons kv rest ih =>
    obtain ⟨key, profile⟩ := kv
    by_cases hc : pyContains name key
    · simpa [lookupIn, hc] using hdb (key, profile) (by simp)
    · simp only [lookupIn, hc, if_false]
      exact ih (fun e he => hdb e (List.mem_cons_of_mem _ he))

theorem unit_factors_nonneg : ∀ e ∈ UNIT_TO_GRAMS, 0 ≤ e.2 := by
  intro e he
  fin_cases he <;> norm_num

theorem unitLookup_nonneg (l : List (String × ℚ)) (h : ∀ e ∈ l, 0 ≤ e.2)
    (u : String) (c : ℚ) (hc : unitLookup l u = some c) : 0 ≤ c := by
  induction l with
  | nil => simp [unitLookup] at hc
  | cons e rest ih =>
    obtain ⟨k, v⟩ := e
    by_cases hk : u = k
    · subst hk
      simp [unitLookup] at hc
      exact hc ▸ h (u, v) (by simp)
    · simp only [unitLookup, hk, if_false] at hc
      exact ih (fun e he => h e (List.mem_cons_of_mem _ he)) hc

theorem toGrams_nonneg (amount : ℚ) (unit : String) (ha : 0 ≤ amount) :
    0 ≤ toGrams amount unit := by
  unfold toGrams
  cases hc : unitLookup UNIT_TO_GRAMS (pyLower unit) with
  | none => exact ha
  | some c =>
    exact mul_nonneg ha (unitLookup_nonneg UNIT_TO_GRAMS unit_factors_nonneg _ c hc)

theorem nutrient_fold_nonneg (key : String) :
    ∀ (norm : List NormalisedIngredient) (acc : ℚ), 0 ≤ acc →
      (∀ i ∈ norm, 0 ≤ i.amount) →
      0 ≤ norm.foldl
        (fun acc ing =>
          acc + profGet (lookupProfile ing.name) key * (toGrams ing.amount ing.unit / 100))
        acc
  | [], acc, ha, _ => by simpa using ha
  | i :: rest, acc, ha, h => by
    simp only [List.foldl_cons]
    refine nutrient_fold_nonneg key rest _ ?_ (fun j hj => h j (List.mem_cons_of_mem _ hj))
    refine add_nonneg ha (mul_nonneg ?_ (div_nonneg ?_ (by norm_num)))
    · exact profGet_nonneg _ (lookupIn_entries_nonneg NUTRITION_DB db_entries_nonneg _) key
    · exact toGrams_nonneg _ _ (h i (List.mem_cons_self i rest))

theorem nutrientTotal_nonneg (norm : List NormalisedIngredient)
    (h : ∀ i ∈ norm, 0 ≤ i.amount) (key : String) : 0 ≤ nutrientTotal norm key :=
  nutrient_fold_nonneg key norm 0 le_rfl h

theorem pyRound2_nonneg (q : ℚ) (h : 0 ≤ q) : 0 ≤ pyRound2 q := by
  have hf : (0 : ℤ) ≤ ⌊q * 100⌋ := Int.floor_nonneg.mpr (by positivity)
  unfold pyRound2 roundHalfEven
  dsimp only
  refine div_nonneg ?_ (by norm_num)
  split
  · exact_mod_cast hf
  · split
    · exact_mod_cast Int.add_nonneg hf (by norm_num)
    · split
      · exact_mod_cast hf
      · exact_mod_cast Int.add_nonneg hf (by norm_num)

/-! ## Claims -/

/-- Claim C7: the nutrient-profile lookup walks the fixed table in its
enumeration order and returns the profile of the first key that is a
substring of the (normalised) name; when no key is a substring it returns
the all-zero profile. -/
theorem lookup_profile_first_substring_wins (name : String) :
    lookupProfile name =
      ((NUTRITION_DB.find? (fun kv => pyContains name kv.1)).map Prod.snd).getD
        zeroProfile :=
  lookupIn_eq_find NUTRITION_DB name

/-- Claim C6: an ingredient whose (lowercased) unit misses the
unit-to-grams table has its amount passed through unchanged, and the
conversion never fails. -/
theorem to_grams_unknown_unit_passthrough (amount : ℚ) (unit : String)
    (h : unitLookup UNIT_TO_GRAMS (pyLower unit) = none) :
    toGrams amount unit = amount := by
  simp [toGrams, h]

/-- Witness for C6: the unrecognised unit `"smidge"` leaves the amount 7
unchanged. -/
theorem to_grams_unknown_unit_passthrough_witness : toGrams 7 "smidge" = 7 :=
  to_grams_unknown_unit_passthrough 7 "smidge" (by decide)

/-- Claim C9: on every input line the ingredient-line parser returns a
name/amount/unit record (it is a total function raising no exception), and
a unit is only ever reported together with a parsed amount. -/
theorem parse_ingredient_total (line : String) :
    ∃ r : ParsedIngredient, parse_ingredient line = r ∧ (r.amount = none → r.unit = none) := by
  refine ⟨parse_ingredient line, rfl, ?_⟩
  unfold parse_ingredient
  dsimp only
  split
  · simp
  · split
    · simp
    · split
      · simp
      · split <;> simp

/-- Counterexample to C4 as stated: the degenerate line `"5"` parses with
name `"5"` (the whole line), not the empty string. -/
theorem parse_number_only_line_counterexample :
    parse_ingredient "5" = ⟨"5", some 5, none⟩ ∧ ("5" : String) ≠ "" := by
  constructor
  · simp +decide [parse_ingredient, stripBullet, pySplit, splitTokens, splitTokensAux,
      pyIsSpace, pyParseFloat, natOfDigits, bulletChars]
  · decide

/-- Claim C4 (amended): a line whose bullet-stripped form splits into a
single token that parses as a number yields the bullet-stripped line itself
as the name (with the parsed amount and no unit), and does not raise. -/
theorem parse_number_only_line (line t : String) (q : ℚ)
    (hsplit : pySplit (stripBullet line) = [t])
    (hparse : pyParseFloat t = some q) :
    parse_ingredient line = ⟨stripBullet line, some q, none⟩ := by
  unfold parse_ingredient
  dsimp only
  rw [hsplit]
  simp [hparse]

/-- Witness for C4 (amended), at the line `"5"`. -/
theorem parse_number_only_line_witness :
    parse_ingredient "5" = ⟨stripBullet "5", some 5, none⟩ :=
  parse_number_only_line "5" "5" 5 (by decide)
    (by simp [pyParseFloat, natOfDigits])

/-- Counterexample to C3 as stated: the empty string is a non-numeric
`"amount"` value (`float("")` would raise), yet the call succeeds, because
falsy amounts are replaced by the default 1.0 before conversion. -/
theorem non_numeric_amount_counterexample :
    pyParseFloat "" = none ∧
      calculate_nutrition [.dictE ⟨some "flour", some (.str ""), some "g"⟩] =
        .ok [("calories", 3.64), ("protein", 0.1), ("carbs", 0.76), ("fat", 0.01),
             ("sugar", 0), ("sodium", 0.02), ("fiber", 0.03)] := by
  constructor
  · decide
  · simp +decide [calculate_nutrition, normaliseIngredients, normaliseEntry, pyFloatOf,
      pyTruthy, DEFAULT_KEYS, nutrientTotal, lookupProfile, lookupIn, NUTRITION_DB,
      profGet, toGrams, unitLookup, UNIT_TO_GRAMS, pyRound2, roundHalfEven]
    norm_num [Int.fract]

/-- Claim C3 (amended): a structured ingredient record whose `"amount"`
value is a truthy non-numeric string makes the call raise a value
conversion error; falsy non-numeric amounts (such as `""` or `None`) are
instead silently replaced by the default 1.0. -/
theorem non_numeric_amount_raises (nm u : Option String) (s : String)
    (hs : s ≠ "") (hp : pyParseFloat s = none) :
    ∃ e, calculate_nutrition [.dictE ⟨nm, some (.str s), u⟩] = .error e := by
  refine ⟨"could not convert string to float: " ++ s, ?_⟩
  simp [calculate_nutrition, normaliseIngredients, normaliseEntry, pyFloatOf, pyTruthy,
    hs, hp]

/-- Witness for C3 (amended), at the non-numeric amount `"abc"`. -/
theorem non_numeric_amount_raises_witness :
    ∃ e, calculate_nutrition [.dictE ⟨some "flour", some (.str "abc"), some "g"⟩] =
      .error e :=
  non_numeric_amount_raises (some "flour") (some "g") "abc" (by decide) (by decide)

/-- Counterexample to C1 as stated: a structured record with the negative
amount -100 produces a negative calories total. -/
theorem nutrition_nonneg_counterexample :
    calculate_nutrition [.dictE ⟨some "flour", some (.num (-100)), some "g"⟩] =
        .ok [("calories", -364), ("protein", -10), ("carbs", -76), ("fat", -1),
             ("sugar", -0.3), ("sodium", -2), ("fiber", -2.7)] ∧
      ("calories", (-364 : ℚ)) ∈
        [(("calories" : String), (-364 : ℚ)), ("protein", -10), ("carbs", -76), ("fat", -1),
         ("sugar", -0.3), ("sodium", -2), ("fiber", -2.7)] ∧
      ¬ (0 ≤ (-364 : ℚ)) := by
  refine ⟨?_, by simp, by norm_num⟩
  simp +decide [calculate_nutrition, normaliseIngredients, normaliseEntry, pyFloatOf,
    pyTruthy, DEFAULT_KEYS, nutrientTotal, lookupProfile, lookupIn, NUTRITION_DB,
    profGet, toGrams, unitLookup, UNIT_TO_GRAMS, pyRound2, roundHalfEven]
  norm_num [Int.fract]

/-- Claim C1 (amended): whenever the input normalises successfully and
every normalised amount is non-negative (bare strings always normalise to
amount 1), every one of the seven returned nutrient values is
non-negative. -/
theorem nutrition_totals_nonneg (entries : List IngredientEntry)
    (norm : List NormalisedIngredient)
    (hn : normaliseIngredients entries = .ok norm)
    (hpos : ∀ i ∈ norm, 0 ≤ i.amount) :
    ∃ out, calculate_nutrition entries = .ok out ∧ ∀ kv ∈ out, 0 ≤ kv.2 := by
  refine ⟨DEFAULT_KEYS.map (fun key => (key, pyRound2 (nutrientTotal norm key))), ?_, ?_⟩
  · unfold calculate_nutrition
    rw [hn]
  · intro kv hkv
    simp only [List.mem_map] at hkv
    obtain ⟨key, hk, rfl⟩ := hkv
    exact pyRound2_nonneg _ (nutrientTotal_nonneg norm hpos key)

/-- Witness for C1 (amended), at the bare-string input `["flour"]`. -/
theorem nutrition_totals_nonneg_witness :
    ∃ out, calculate_nutrition [.strE "flour"] = .ok out ∧ ∀ kv ∈ out, 0 ≤ kv.2 :=
  nutrition_totals_nonneg [.strE "flour"] [⟨"flour", 1, "unit"⟩]
    (by simp +decide [normaliseIngredients, normaliseEntry])
    (by intro i hi; simp at hi; simp [hi])

/-- Claim C5: bare-string entries normalise to amount 1.0 with unit
`"unit"` (worth 50 grams), and `calculate_nutrition(["flour","sugar","egg"])`
returns, for each nutrient key, half the sum of the per-100g flour, sugar
and egg profile values, rounded to 2 decimals. -/
theorem bare_string_defaults_and_half_sum :
    (∀ s, normaliseEntry (.strE s) = .ok ⟨pyLower s, 1, "unit"⟩) ∧
      unitLookup UNIT_TO_GRAMS "unit" = some 50 ∧
      calculate_nutrition [.strE "flour", .strE "sugar", .strE "egg"] =
        .ok (DEFAULT_KEYS.map fun key =>
          (key, pyRound2 ((profGet (lookupProfile "flour") key +
            profGet (lookupProfile "sugar") key + profGet (lookupProfile "egg") key) / 2))) := by
  refine ⟨fun s => rfl, by simp +decide [unitLookup, UNIT_TO_GRAMS]; norm_num, ?_⟩
  simp +decide [calculate_nutrition, normaliseIngredients, normaliseEntry, DEFAULT_KEYS,
    nutrientTotal, lookupProfile, lookupIn, NUTRITION_DB, profGet, toGrams, unitLookup,
    UNIT_TO_GRAMS, pyRound2, roundHalfEven]
  norm_num [Int.fract]

theorem splitTokensAux_no_sep (p : Char → Bool) :
    ∀ (tok rest cur : List Char), (∀ c ∈ tok, p c = false) →
      splitTokensAux p (tok ++ rest) cur = splitTokensAux p rest (tok.reverse ++ cur)
  | [], rest, cur, _ => by simp
  | c :: t, rest, cur, h => by
    have hc : p c = false := h c (List.mem_cons_self c t)
    show splitTokensAux p (c :: (t ++ rest)) cur = splitTokensAux p rest ((c :: t).reverse ++ cur)
    simp only [splitTokensAux, hc, Bool.false_eq_true, if_false]
    rw [splitTokensAux_no_sep p t rest (c :: cur) (fun d hd => h d (List.mem_cons_of_mem _ hd))]
    simp

theorem splitTokensAux_sep (p : Char → Bool) (c : Char) (rest cur : List Char)
    (hc : p c = true) :
    splitTokensAux p (c :: rest) cur =
      if cur.isEmpty then splitTokensAux p rest []
      else ⟨cur.reverse⟩ :: splitTokensAux p rest [] := by
  simp [splitTokensAux, hc]

theorem splitTokensAux_token_space (tok : String) (rest : List Char)
    (h1 : tok.data ≠ []) (h2 : ∀ c ∈ tok.data, pyIsSpace c = false) :
    splitTokensAux pyIsSpace (tok.data ++ ' ' :: rest) [] =
      tok :: splitTokensAux pyIsSpace rest [] := by
  rw [splitTokensAux_no_sep pyIsSpace tok.data (' ' :: rest) [] h2,
    splitTokensAux_sep pyIsSpace ' ' rest _ (by decide)]
  simp [h1]

theorem pySplit_two_tokens_and_tail (a u nm : String)
    (ha : a.data ≠ []) (haSp : ∀ c ∈ a.data, pyIsSpace c = false)
    (hu : u.data ≠ []) (huSp : ∀ c ∈ u.data, pyIsSpace c = false) :
    pySplit (a ++ " " ++ u ++ " " ++ nm) = a :: u :: pySplit nm := by
  unfold pySplit splitTokens
  have hdata : (a ++ " " ++ u ++ " " ++ nm).data =
      a.data ++ ' ' :: (u.data ++ ' ' :: nm.data) := by
    simp [String.data_append]
  rw [hdata, splitTokensAux_token_space a _ ha haSp,
    splitTokensAux_token_space u _ hu huSp]

theorem stripBullet_no_bullet (line : String) (c : Char) (cs : List Char)
    (hdata : line.data = c :: cs) (hc : c ∉ bulletChars) : stripBullet line = line := by
  unfold stripBullet
  rw [hdata]
  exact if_neg hc

/-- Counterexample to C2 as stated: `-2.5` is a valid float, but formatting
`"-2.5 g salt"` and parsing it strips the leading `-` as a bullet marker,
so the recovered amount is `2.5`, not `-2.5`. -/
theorem ingredient_round_trip_counterexample :
    pyParseFloat "-2.5" = some (-(5 / 2)) ∧
      parse_ingredient ("-2.5" ++ " " ++ "g" ++ " " ++ "salt") =
        ⟨"salt", some (5 / 2), some "g"⟩ ∧
      ((5 : ℚ) / 2) ≠ -(5 / 2) := by
  refine ⟨by simp +decide [pyParseFloat, natOfDigits]; norm_num, ?_, by norm_num⟩
  simp +decide [parse_ingredient, stripBullet, bulletChars, pyIsSpace, pySplit,
    splitTokens, splitTokensAux, pyParseFloat, natOfDigits, pyJoin, parseExpPart]
  norm_num

/-- Claim C2 (amended): formatting `"{amount} {unit} {name}"` and parsing
it recovers the amount, unit and name exactly, provided the amount token
does not start with a bullet-class character (in particular it is
non-negative), the unit token is nonempty and whitespace-free, and the name
is nonempty and already in whitespace-normal form (its tokens joined by
single spaces). -/
theorem ingredient_line_round_trip (a u nm : String) (q : ℚ) (c : Char) (cs : List Char)
    (hq : pyParseFloat a = some q)
    (hcs : a.data = c :: cs) (hc : c ∉ bulletChars)
    (haSp : ∀ d ∈ a.data, pyIsSpace d = false)
    (huNe : u.data ≠ []) (huSp : ∀ d ∈ u.data, pyIsSpace d = false)
    (hnm1 : pySplit nm ≠ []) (hnm2 : pyJoin " " (pySplit nm) = nm) :
    parse_ingredient (a ++ " " ++ u ++ " " ++ nm) = ⟨nm, some q, some u⟩ := by
  have haData : a.data ≠ [] := by rw [hcs]; simp
  have hline : (a ++ " " ++ u ++ " " ++ nm).data =
      c :: (cs ++ ' ' :: (u.data ++ ' ' :: nm.data)) := by
    simp [String.data_append, hcs]
  have hsb : stripBullet (a ++ " " ++ u ++ " " ++ nm) = a ++ " " ++ u ++ " " ++ nm :=
    stripBullet_no_bullet _ c _ hline hc
  obtain ⟨n0, nrest, hnm⟩ := List.exists_cons_of_ne_nil hnm1
  unfold parse_ingredient
  dsimp only
  rw [hsb, pySplit_two_tokens_and_tail a u nm haData haSp huNe huSp, hnm]
  simp only [hq]
  rw [← hnm, hnm2]

/-- Witness for C2 (amended), at `"2.5 cup plain flour"`. -/
theorem ingredient_line_round_trip_witness :
    parse_ingredient ("2.5" ++ " " ++ "cup" ++ " " ++ "plain flour") =
      ⟨"plain flour", some (5 / 2), some "cup"⟩ :=
  ingredient_line_round_trip "2.5" "cup" "plain flour" (5 / 2) '2' ['.', '5']
    (by simp +decide [pyParseFloat, natOfDigits]; norm_num) rfl (by decide) (by decide)
    (by decide) (by decide) (by decide) (by decide)

theorem fold_no_headers :
    ∀ (lines : List String) (st : ScrapeState), st.sect = none →
      (∀ l ∈ lines, pyStartsWith (pyLower l) "ingredients" = false ∧
        pyStartsWith (pyLower l) "instructions" = false ∧ l ≠ "") →
      ∃ p c v, lines.foldl stepLine st =
        { sect := none,
          description :=
            if st.description = "" then ((lines.find? fun l => !(isMetaLine l)).getD "")
            else st.description,
          ingredients := st.ingredients, instructions := st.instructions,
          prep_time := p, cook_time := c, servings := v }
  | [], st, hsect, _ => by
    refine ⟨st.prep_time, st.cook_time, st.servings, ?_⟩
    rcases st with ⟨sect, desc, ing, ins, p, c, v⟩
    simp only [List.foldl_nil, List.find?_nil, Option.getD_none]
    cases hsect
    by_cases hd : desc = "" <;> simp [hd]
  | l :: rest, st, hsect, hl => by
    obtain ⟨h1, h2, hne⟩ := hl l (List.mem_cons_self l rest)
    have hl' : ∀ x ∈ rest, pyStartsWith (pyLower x) "ingredients" = false ∧
        pyStartsWith (pyLower x) "instructions" = false ∧ x ≠ "" :=
      fun x hx => hl x (List.mem_cons_of_mem _ hx)
    simp only [List.foldl_cons]
    by_cases hp : pyStartsWith (pyLower l) "prep time" = true
    · have hstep : stepLine st l = { st with prep_time := extract_number l } := by
        simp [stepLine, h1, h2, hp]
      obtain ⟨p, c, v, hfold⟩ := fold_no_headers rest { st with prep_time := extract_number l }
        hsect hl'
      refine ⟨p, c, v, ?_⟩
      rw [hstep, hfold]
      simp [List.find?_cons, isMetaLine, hp]
    · by_cases hc : pyStartsWith (pyLower l) "cook time" = true
      · have hstep : stepLine st l = { st with cook_time := extract_number l } := by
          simp [stepLine, h1, h2, hp, hc]
        obtain ⟨p, c, v, hfold⟩ := fold_no_headers rest
          { st with cook_time := extract_number l } hsect hl'
        refine ⟨p, c, v, ?_⟩
        rw [hstep, hfold]
        simp [List.find?_cons, isMetaLine, hc]
      · by_cases hs : pyStartsWith (pyLower l) "servings" = true
        · have hstep : stepLine st l = { st with servings := extract_number l } := by
            simp [stepLine, h1, h2, hp, hc, hs]
          obtain ⟨p, c, v, hfold⟩ := fold_no_headers rest
            { st with servings := extract_number l } hsect hl'
          refine ⟨p, c, v, ?_⟩
          rw [hstep, hfold]
          simp [List.find?_cons, isMetaLine, hs]
        · have hmeta : isMetaLine l = false := by simp [isMetaLine, hp, hc, hs]
          by_cases hd : st.description = ""
          · have hstep : stepLine st l = { st with description := l } := by
              simp [stepLine, h1, h2, hp, hc, hs, hsect, hd]
            obtain ⟨p, c, v, hfold⟩ := fold_no_headers rest { st with description := l }
              hsect hl'
            refine ⟨p, c, v, ?_⟩
            rw [hstep, hfold]
            simp [List.find?_cons, hmeta, hd, hne]
          · have hstep : stepLine st l = st := by
              simp [stepLine, h1, h2, hp, hc, hs, hsect, hd]
            obtain ⟨p, c, v, hfold⟩ := fold_no_headers rest st hsect hl'
            refine ⟨p, c, v, ?_⟩
            rw [hstep, hfold]
            simp [hd]

/-- Counterexample to C8 as stated: with no ingredients/instructions
headers but a metadata second line, the description is the third line, not
the second. -/
theorem scrape_second_line_metadata_counterexample :
    cleanLines "Title\nPrep time: 5 min\nActual description" =
        ["Title", "Prep time: 5 min", "Actual description"] ∧
      parse_extracted_text "Title\nPrep time: 5 min\nActual description" "http://x" =
        .ok ⟨"Title", "Actual description", [], "", some 5, none, none, none, "http://x",
             [("calories", 0), ("protein", 0), ("carbs", 0), ("fat", 0), ("sugar", 0),
              ("sodium", 0), ("fiber", 0)]⟩ ∧
      "Actual description" ≠ "Prep time: 5 min" := by
  refine ⟨by decide, ?_, by decide⟩
  simp +decide [parse_extracted_text, cleanLines, splitTokens, splitTokensAux,
    isNewlineChar, pyStrip, pyIsSpace, stepLine, pyStartsWith, startsWithL, pyLower,
    extract_number, firstNumberL, natOfDigits, parse_ingredient, parsedToEntry,
    calculate_nutrition, normaliseIngredients, DEFAULT_KEYS, nutrientTotal, pyJoin,
    pyRound2, roundHalfEven]

/-- Claim C8 (amended): on non-blank text with no line prefixed
(case-insensitively) by "ingredients" or "instructions", the parser does
not raise and returns title = first non-blank line, an empty ingredients
list, an empty instructions string, and as description the first
subsequent line that is not a prep-time/cook-time/servings metadata line
(empty if there is none). -/
theorem scrape_no_headers (text url title : String) (rest : List String)
    (hl : cleanLines text = title :: rest)
    (hhdr : ∀ l ∈ title :: rest, pyStartsWith (pyLower l) "ingredients" = false ∧
      pyStartsWith (pyLower l) "instructions" = false) :
    ∃ r, parse_extracted_text text url = .ok r ∧ r.title = title ∧
      r.description = ((rest.find? fun l => !(isMetaLine l)).getD "") ∧
      r.ingredients = [] ∧ r.instructions = "" := by
  have hne : ∀ l ∈ rest, l ≠ "" := by
    intro l hlr
    have hmem : l ∈ cleanLines text := by
      rw [hl]; exact List.mem_cons_of_mem _ hlr
    unfold cleanLines at hmem
    simpa using (List.mem_filter.mp hmem).2
  obtain ⟨p, c, v, hfold⟩ := fold_no_headers rest ⟨none, "", [], [], none, none, none⟩ rfl
    (fun l hl' => ⟨(hhdr l (List.mem_cons_of_mem _ hl')).1,
      (hhdr l (List.mem_cons_of_mem _ hl')).2, hne l hl'⟩)
  unfold parse_extracted_text
  simp only [hl]
  rw [hfold]
  exact ⟨_, rfl, rfl, rfl, rfl, rfl⟩

/-- Witness for C8 (amended), at the two-line text `"Title\nDesc"`. -/
theorem scrape_no_headers_witness :
    ∃ r, parse_extracted_text "Title\nDesc" "http://x" = .ok r ∧ r.title = "Title" ∧
      r.description = ((["Desc"].find? fun l => !(isMetaLine l)).getD "") ∧
      r.ingredients = [] ∧ r.instructions = "" :=
  scrape_no_headers "Title\nDesc" "http://x" "Title" ["Desc"] (by decide) (by decide)

end RecipeServer
